import Mathlib

/-!
Verification of the GetFinancing/python-command dispatch engine.

The definitions below are a shallow embedding of `src/command/command.py`
(class `Command`, its construction of the sub-command and alias tables, and
`Command.parse`) and of `src/command/tcommand.py` (class `ReactorCommand`,
its `parse` with the `parseCb`/`parseEb` callbacks attached to a deferred,
and the reactor run/stop lifecycle).

Modelling conventions:
* Python values relevant to exit-code handling are `PyVal` (`None`, ints,
  strings); Python truthiness of these is `truthy`.
* Output is modelled as a trace of events tagged with the logical channel
  (`stdout`/`stderr`).  Text rendering done by the excluded collaborators
  (optparse help/usage/commands formatting, spec section 1) is recorded as
  structured events (`printHelp`, `printUsage`, `printCommands`) carrying
  the channel they were asked to write to; literal `write` calls keep
  their exact string.
* The option-parsing collaborator is out of scope (spec sections 1 and 6).
  `parse` is modelled for token lists that contain no option tokens, for
  which `CommandOptionParser.parse_args` returns the argument list
  unchanged with `help_printed = usage_printed = False`, and the base
  class `handleOptions` returns `None` (falsy), so neither early return in
  `Command.parse` (lines 319-328) fires.
-/

namespace PyCommand

/-- Python values that flow through the exit-code paths of the program:
`None`, integers and strings. -/
inductive PyVal where
  | none
  | int (n : Int)
  | str (s : String)
deriving DecidableEq, Repr

/-- Python truthiness of a `PyVal`: `None`, `0` and `""` are falsy. -/
def truthy : PyVal → Bool
  | .none => false
  | .int n => n != 0
  | .str s => s != ""

/-- The two logical output channels of a command node. -/
inductive Chan where
  | out
  | err
deriving DecidableEq, Repr

/-- One observable output event of `Command.parse`. -/
inductive Ev where
  | write (c : Chan) (s : String)
  | printHelp (c : Chan)
  | printUsage (c : Chan)
  | printCommands (c : Chan)
deriving DecidableEq, Repr

/-- Outcome of a leaf's `do(args)` body: a returned value, or one of the
exceptions `Command.parse` catches (`CommandOk` carries status 0 and an
optional output written to stdout; `CommandExited` carries a status and an
optional output written to stderr; `NotImplementedError` from the base
class `do`). -/
inductive DoOutcome where
  | ret (v : PyVal)
  | cmdOk (output : Option String)
  | cmdExited (status : Int) (output : Option String)
  | notImplemented

/-- A command node: its name, declared aliases, the (ordered) list of child
nodes created from `subCommandClasses`, and its `do` action. -/
inductive Cmd where
  | mk (name : String) (aliases : List String) (children : List Cmd)
       (act : List String → DoOutcome)

def Cmd.name : Cmd → String
  | .mk n _ _ _ => n

def Cmd.aliases : Cmd → List String
  | .mk _ a _ _ => a

def Cmd.children : Cmd → List Cmd
  | .mk _ _ ch _ => ch

def Cmd.act : Cmd → List String → DoOutcome
  | .mk _ _ _ f => f

/-- Association list standing for a Python dict from identifier to child. -/
abbrev CmdMap := List (String × Cmd)

/-- Dict assignment `m[k] = v`: replaces an existing binding of `k`,
otherwise appends. -/
def updateA (k : String) (v : Cmd) : CmdMap → CmdMap
  | [] => [(k, v)]
  | (k', v') :: t => if k' = k then (k, v) :: t else (k', v') :: updateA k v t

/-- Dict lookup `m[k]`. -/
def lookupA (k : String) : CmdMap → Option Cmd
  | [] => Option.none
  | (k', v) :: t => if k' = k then some v else lookupA k t

/-- One iteration of the construction loop in `Command.__init__`
(command.py lines 206-212): register the child under its name in
`subCommands` and under each of its aliases in `aliasedSubCommands`. -/
def addChildMaps (m : CmdMap × CmdMap) (c : Cmd) : CmdMap × CmdMap :=
  (updateA c.name c m.1, c.aliases.foldl (fun mm a => updateA a c mm) m.2)

/-- The `subCommands` dict built at construction time. -/
def Cmd.subCommands (c : Cmd) : CmdMap :=
  (c.children.foldl addChildMaps ([], [])).1

/-- The `aliasedSubCommands` dict built at construction time. -/
def Cmd.aliasedSubCommands (c : Cmd) : CmdMap :=
  (c.children.foldl addChildMaps ([], [])).2

/-- Sub-command resolution of `Command.parse` (command.py lines 400-405):
the token is looked up in `subCommands` first and, only if that fails and
`aliasedSubCommands` is non-empty, in `aliasedSubCommands`. -/
def Cmd.resolve (c : Cmd) (tok : String) : Option Cmd :=
  match lookupA tok c.subCommands with
  | some child => some child
  | Option.none =>
    if c.aliasedSubCommands.isEmpty then Option.none
    else lookupA tok c.aliasedSubCommands

/-- The coercion at the end of the synchronous do-branch of `Command.parse`
(command.py lines 384-385): `if not ret: ret = 0`. -/
def syncCoerce (v : PyVal) : PyVal :=
  if truthy v then v else .int 0

/-- The try/except around `self.do(args)` in `Command.parse`
(command.py lines 362-380). -/
def runDo (c : Cmd) (args : List String) : PyVal × List Ev :=
  match c.act args with
  | .ret v => (v, [])
  | .cmdOk out =>
    (.int 0, match out with
             | some s => [.write .out (s ++ "\n")]
             | Option.none => [])
  | .cmdExited st out =>
    (.int st, match out with
              | some s => [.write .err (s ++ "\n")]
              | Option.none => [])
  | .notImplemented =>
    (.int 1, [.printUsage .err, .write .err "Use --help to get a list of commands.\n"])

/-- The do-branch of `Command.parse` (command.py lines 359-387): run `do`,
then coerce a falsy result to exit code 0. -/
def doBranch (c : Cmd) (args : List String) : PyVal × List Ev :=
  let r := runDo c args
  (syncCoerce r.1, r.2)

mutual

/-- `Command.parse` (command.py lines 302-413) for option-free token
lists.  The first token `help` is intercepted (lines 331-354): alone it
prints a newline on stdout plus this node's help (which `outputHelp`,
lines 421-429, sends to stderr by default) and returns 0; with a further
token it either complains when there are no sub-commands, or swaps the
first two tokens (dropping any later ones: `args = [args[1], args[0]]`)
and falls through to routing.  With no remainder or no sub-commands the
leaf action runs (lines 359-387); otherwise the first token is routed to
a child (lines 389-413). -/
def Cmd.parse : Cmd → List String → PyVal × List Ev
  | c, [] => doBranch c []
  | c, command :: rest =>
    if command = "help" then
      match rest with
      | [] => (.int 0, [.write .out "\n", .printHelp .err])
      | x :: _ =>
        if c.subCommands.isEmpty then
          (.int 1, [.write .err "No subcommands defined.\n", .printUsage .err,
                    .write .err "Use --help to get more information about this command.\n"])
        else Cmd.route c x ["help"]
    else if c.subCommands.isEmpty then doBranch c (command :: rest)
    else Cmd.route c command rest
termination_by _ l => (l.length, 0)

/-- The sub-command routing block of `Command.parse` (command.py lines
400-413): resolve the token (names before aliases), recurse into the
child, or print the appropriate diagnostic and return 1. -/
def Cmd.route (c : Cmd) (command : String) (rest : List String) : PyVal × List Ev :=
  match c.resolve command with
  | some child => Cmd.parse child rest
  | Option.none =>
    if command = "" then
      (.int 1, [.write .err "Please specify a subcommand.\n"])
    else
      (.int 1, [.write .err ("Unknown command \x27" ++ command ++ "\x27.\n"),
                .printCommands .err])
termination_by (rest.length, 1)

end

/-- A resolved physical output sink: one of the process streams
(`sys.stdout`/`sys.stderr`) or an explicitly injected file object,
identified by a number. -/
inductive Sink where
  | proc (c : Chan)
  | custom (n : Nat)
deriving DecidableEq, Repr

/-- `Command._getStd` (command.py lines 479-490), which backs the `stdout`
and `stderr` properties: the list holds the `(_stdout, _stderr)` fields of
the node followed by those of its ancestors up to the root.  A node's own
explicitly set sink wins; otherwise the parent's property is consulted;
the root defaults to the process stream. -/
def getStd : List (Option Sink × Option Sink) → Chan → Sink
  | [], w => .proc w
  | node :: parents, w =>
    match (match w with | .out => node.1 | .err => node.2) with
    | some s => s
    | Option.none =>
      match parents with
      | [] => .proc w
      | _ :: _ => getStd parents w

/-! ## The asynchronous bridge: `ReactorCommand` (tcommand.py)

`ReactorCommand.parse` chains up to `Command.parse`; when the result is a
deferred it attaches `parseCb`/`parseEb` (lines 109-149), then either
returns/raises an already-captured outcome (lines 151-159) or sets
`_reactorRunning`, runs the reactor, and returns/raises after the run
(lines 161-167).  The model below covers one pending outcome that settles
exactly once, either before the callbacks are attached (`SettlePlan.already`
— Twisted runs callbacks on an already-fired deferred at the moment they
are added) or while the reactor is running (`SettlePlan.during`). -/

/-- A fault carried by a failed deferred: an expected-exit exception
(`CommandExited`, including its subclasses `CommandOk`/`CommandError`,
which `failure.check(command.CommandExited)` recognizes) or any other
unexpected exception, identified by its description string. -/
inductive Fault where
  | commandExited (status : Int) (output : Option String)
  | other (desc : String)
deriving DecidableEq, Repr

/-- How the single pending outcome settles. -/
inductive Settlement where
  | success (v : PyVal)
  | fault (f : Fault)
deriving DecidableEq, Repr

/-- When the pending outcome settles relative to the owner's run/stop
cycle: before the callbacks are attached, or during the reactor run. -/
inductive SettlePlan where
  | already (s : Settlement)
  | during (s : Settlement)
deriving DecidableEq, Repr

def SettlePlan.settlement : SettlePlan → Settlement
  | .already s => s
  | .during s => s

/-- `self.returnValue`: a Python value (initially `None`, tcommand.py line
66) or a stored `failure.Failure` (line 143). -/
inductive RV where
  | val (v : PyVal)
  | fail (f : Fault)
deriving DecidableEq, Repr

/-- The normalization in `parseCb` (tcommand.py lines 110-116): `None`
becomes 0; a truthy value is kept; a falsy non-`None` value becomes 0 only
when help or usage was printed, and is otherwise passed through
unchanged. -/
def parseCbNorm (helpPrinted usagePrinted : Bool) (ret : PyVal) : PyVal :=
  if ret = .none then .int 0
  else if truthy ret then ret
  else if helpPrinted || usagePrinted then .int 0
  else ret

/-- The attribute table of a `CommandExited` instance as created by
`CommandExited.__init__` (command.py lines 502-507): it sets `args`,
`status` and `output` and nothing else.  In particular there is no `msg`
and no `code` attribute, so the accesses `failure.value.msg` and
`failure.value.code` in `parseEb` (tcommand.py lines 129-130) raise
`AttributeError`. -/
def exitedAttr (status : Int) (output : Option String) : String → Option PyVal
  | "status" => some (.int status)
  | "output" => some (match output with | some s => .str s | Option.none => .none)
  | _ => Option.none

/-- Result of running the deferred's callback chain (`parseCb` then
`parseEb`, tcommand.py lines 109-149) once the settlement arrives. -/
structure ChainRes where
  returnValue : RV
  flag : Bool
  stopRequested : Bool
  errWrites : List String
  ebAttrError : Bool
deriving DecidableEq, Repr

/-- Effect of the settlement firing the callback chain.  `rv0`/`flag0` are
`self.returnValue` and `self._reactorRunning` at that moment.

* Success runs `parseCb` (lines 109-123): normalize, store the value, and
  if the reactor is running clear the flag and call `reactor.stop()`.
* A fault runs `parseEb` (lines 125-146).  For a recognized
  `CommandExited` the errback evaluates `failure.value.msg`; `exitedAttr`
  shows the instance has no such attribute, so the errback itself raises
  `AttributeError` and aborts before writing anything, scheduling any
  stop, or assigning `returnValue` (the resulting failure has no further
  errback and is dropped by the deferred machinery).
* For any other fault the errback schedules one `reactor.stop` via
  `callLater(0, ...)`, writes the failure description to stderr, and
  stores the failure for re-raising, leaving the running flag untouched. -/
def fireChain (hp up : Bool) (s : Settlement) (rv0 : RV) (flag0 : Bool) : ChainRes :=
  match s with
  | .success v =>
    let ret := parseCbNorm hp up v
    if flag0 then
      { returnValue := .val ret, flag := false, stopRequested := true,
        errWrites := [], ebAttrError := false }
    else
      { returnValue := .val ret, flag := flag0, stopRequested := false,
        errWrites := [], ebAttrError := false }
  | .fault (.commandExited _ _) =>
    { returnValue := rv0, flag := flag0, stopRequested := false,
      errWrites := [], ebAttrError := true }
  | .fault (.other desc) =>
    { returnValue := .fail (.other desc), flag := flag0, stopRequested := true,
      errWrites := ["Failure: " ++ desc ++ "\n"], ebAttrError := false }

/-- What `ReactorCommand.parse` does for the caller: return a value, raise
a fault (`raiseIfFailure`, lines 151-153), or never return because
`reactor.run()` is never asked to stop. -/
inductive Outcome where
  | returns (v : PyVal)
  | raises (f : Fault)
  | hangs
deriving DecidableEq, Repr

def RV.toOutcome : RV → Outcome
  | .val v => .returns v
  | .fail f => .raises f

/-- Observable trace of one `ReactorCommand.parse` invocation with a
deferred result. -/
structure ParseTrace where
  runEntered : Nat
  stopRequests : Nat
  stopsExecuted : Nat
  finalFlag : Bool
  errWrites : List String
  ebAttrError : Bool
deriving DecidableEq, Repr

/-- `ReactorCommand.parse` (tcommand.py lines 81-167) from the point where
`command.Command.parse` has returned a deferred: attach `parseCb` and
`parseEb`; if `self.returnValue` was captured before the reactor ran,
re-raise a stored failure or return the value without entering `run()`
(lines 151-159); otherwise set `_reactorRunning`, enter `reactor.run()`,
and once the run loop is asked to stop (by `parseCb`'s direct stop or by
the errback's scheduled stop) return or re-raise the captured outcome
(lines 161-167).  If no stop is ever issued, `run()` never returns. -/
def reactorParse (hp up : Bool) (plan : SettlePlan) : Outcome × ParseTrace :=
  match plan with
  | .already s =>
    let ch := fireChain hp up s (.val .none) false
    if ch.returnValue ≠ .val .none then
      (ch.returnValue.toOutcome,
       { runEntered := 0, stopRequests := if ch.stopRequested then 1 else 0,
         stopsExecuted := 0, finalFlag := ch.flag,
         errWrites := ch.errWrites, ebAttrError := ch.ebAttrError })
    else
      if ch.stopRequested then
        (ch.returnValue.toOutcome,
         { runEntered := 1, stopRequests := 1, stopsExecuted := 1,
           finalFlag := true, errWrites := ch.errWrites,
           ebAttrError := ch.ebAttrError })
      else
        (.hangs,
         { runEntered := 1, stopRequests := 0, stopsExecuted := 0,
           finalFlag := true, errWrites := ch.errWrites,
           ebAttrError := ch.ebAttrError })
  | .during s =>
    let ch := fireChain hp up s (.val .none) true
    if ch.stopRequested then
      (ch.returnValue.toOutcome,
       { runEntered := 1, stopRequests := 1, stopsExecuted := 1,
         finalFlag := ch.flag, errWrites := ch.errWrites,
         ebAttrError := ch.ebAttrError })
    else
      (.hangs,
       { runEntered := 1, stopRequests := 0, stopsExecuted := 0,
         finalFlag := ch.flag, errWrites := ch.errWrites,
         ebAttrError := ch.ebAttrError })

/-! ## Helper lemmas about the construction maps -/

theorem lookupA_ne_nil {k : String} {m : CmdMap} {v : Cmd}
    (h : lookupA k m = some v) : m ≠ [] := by
  intro hm
  subst hm
  simp [lookupA] at h

theorem updateA_ne_nil (k : String) (v : Cmd) (m : CmdMap) :
    updateA k v m ≠ [] := by
  cases m with
  | nil => simp [updateA]
  | cons p t =>
    simp only [updateA]
    split <;> simp

theorem foldl_addChildMaps_fst_ne_nil (cs : List Cmd) (m : CmdMap × CmdMap)
    (hm : m.1 ≠ []) : (cs.foldl addChildMaps m).1 ≠ [] := by
  induction cs generalizing m with
  | nil => simpa using hm
  | cons c cs ih =>
    simp only [List.foldl_cons]
    exact ih _ (updateA_ne_nil c.name c m.1)

theorem subCommands_ne_nil {c : Cmd} (h : c.children ≠ []) :
    c.subCommands ≠ [] := by
  unfold Cmd.subCommands
  cases hch : c.children with
  | nil => exact absurd hch h
  | cons d ds =>
    rw [List.foldl_cons]
    exact foldl_addChildMaps_fst_ne_nil ds _ (updateA_ne_nil d.name d [])

theorem children_ne_nil_of_aliased {c : Cmd} (h : c.aliasedSubCommands ≠ []) :
    c.children ≠ [] := by
  intro hch
  apply h
  unfold Cmd.aliasedSubCommands
  rw [hch]
  rfl

theorem resolve_subCommands_ne {c : Cmd} {t : String} {x : Cmd}
    (h : c.resolve t = some x) : c.subCommands ≠ [] := by
  unfold Cmd.resolve at h
  cases hl : lookupA t c.subCommands with
  | some child => exact lookupA_ne_nil hl
  | none =>
    rw [hl] at h
    by_cases he : c.aliasedSubCommands.isEmpty
    · rw [if_pos he] at h
      exact absurd h (by simp)
    · have : c.aliasedSubCommands ≠ [] := by
        intro hn
        exact he (by rw [hn]; rfl)
      exact subCommands_ne_nil (children_ne_nil_of_aliased this)

theorem lookupA_updateA_self (k : String) (v : Cmd) (m : CmdMap) :
    lookupA k (updateA k v m) = some v := by
  induction m with
  | nil => simp [updateA, lookupA]
  | cons p t ih =>
    simp only [updateA]
    by_cases hk : p.1 = k
    · rw [if_pos hk]
      simp [lookupA]
    · rw [if_neg hk]
      simp only [lookupA, if_neg hk]
      exact ih

/-- A token list forming a chain of resolutions from a node down to a
descendant: each token resolves (by name or alias, with the source's
name-before-alias precedence) to the next node. -/
inductive Chain : Cmd → List String → Cmd → Prop
  | nil (c : Cmd) : Chain c [] c
  | cons {c c' leaf : Cmd} {t : String} {ts : List String}
      (hres : c.resolve t = some c') (htail : Chain c' ts leaf) :
      Chain c (t :: ts) leaf

/-! ## Concrete example trees used as witnesses -/

/-- A leaf returning exit code 0, named `build`. -/
def buildLeaf : Cmd := .mk "build" [] [] (fun _ => .ret (.int 0))

/-- A leaf named `serve` with alias `s`. -/
def serveLeaf : Cmd := .mk "serve" ["s"] [] (fun _ => .ret (.int 0))

/-- A root with children `build` and `serve`. -/
def rootCmd : Cmd := .mk "root" [] [buildLeaf, serveLeaf] (fun _ => .notImplemented)

/-- A leaf whose `do` returns the empty string, a falsy non-`None` value. -/
def emptyStrLeaf : Cmd := .mk "leaf" [] [] (fun _ => .ret (.str ""))

/-- Two distinct children that share the name `x`. -/
def dupFirst : Cmd := .mk "x" [] [] (fun _ => .ret (.int 1))

def dupSecond : Cmd := .mk "x" [] [] (fun _ => .ret (.int 2))

/-- A parent whose two declared children both have the name `x`. -/
def dupParent : Cmd := .mk "p" [] [dupFirst, dupSecond] (fun _ => .notImplemented)

/-- A child named `y` whose alias `x` collides with its sibling's name. -/
def aliasChild : Cmd := .mk "y" ["x"] [] (fun _ => .ret (.int 3))

/-- A parent with a child named `x` and a sibling whose alias is `x`. -/
def mixParent : Cmd := .mk "q" [] [dupFirst, aliasChild] (fun _ => .notImplemented)

/-! ## Unfolding lemmas for `Cmd.parse` -/

theorem isEmpty_false_of_ne {m : CmdMap} (h : m ≠ []) : m.isEmpty = false := by
  cases m with
  | nil => exact absurd rfl h
  | cons p t => rfl

/-- Unfolding of `Cmd.parse` at a non-`help` token when sub-commands
exist: control reaches the routing block. -/
theorem parse_cons_route {c : Cmd} {t : String} {rest : List String}
    (ht : t ≠ "help") (hsub : c.subCommands ≠ []) :
    Cmd.parse c (t :: rest) = Cmd.route c t rest := by
  cases rest with
  | nil =>
    rw [Cmd.parse.eq_2, if_neg ht, isEmpty_false_of_ne hsub]
    simp
  | cons x xs =>
    rw [Cmd.parse.eq_3, if_neg ht, isEmpty_false_of_ne hsub]
    simp

/-- Unfolding of `Cmd.route` when the token resolves to a child. -/
theorem route_resolved {c child : Cmd} {t : String} {rest : List String}
    (h : c.resolve t = some child) :
    Cmd.route c t rest = Cmd.parse child rest := by
  rw [Cmd.route.eq_def, h]

/-- Name lookup takes precedence: a token found in `subCommands` resolves
there, whatever the alias table holds. -/
theorem resolve_of_lookupA {c x : Cmd} {t : String}
    (h : lookupA t c.subCommands = some x) : c.resolve t = some x := by
  unfold Cmd.resolve
  rw [h]

/-- `parseCb` never stores Python `None`: `None` is normalized to 0 and
every other input is preserved or replaced by 0. -/
theorem parseCbNorm_ne_none (hp up : Bool) (v : PyVal) :
    parseCbNorm hp up v ≠ .none := by
  unfold parseCbNorm
  split
  · simp
  · rename_i hv
    split
    · exact hv
    · split
      · simp
      · exact hv

/-! ## Claim theorems -/

/-- C6: for every command tree and every token list matching a chain of
child names and/or aliases down to a leaf, `parse` on the root recurses to
exactly that leaf (whatever remainder follows the chain), independently of
whether each level's token is the child's primary name or one of its
aliases; and at each level the token is resolved against exact child names
first, the alias table second. -/
theorem chain_reaches_leaf :
    (∀ (root leaf : Cmd) (p rest : List String), Chain root p leaf →
        (∀ t ∈ p, t ≠ "help") →
        Cmd.parse root (p ++ rest) = Cmd.parse leaf rest) ∧
    (∀ (c x : Cmd) (t : String), lookupA t c.subCommands = some x →
        c.resolve t = some x) := by
  constructor
  · intro root leaf p rest hchain
    induction hchain with
    | nil c => intro _; rfl
    | cons hres htail ih =>
      intro hhelp
      rename_i c c' leaf' t ts
      have ht : t ≠ "help" := hhelp t (by simp)
      have hsub := resolve_subCommands_ne hres
      rw [List.cons_append, parse_cons_route ht hsub, route_resolved hres]
      exact ih (fun u hu => hhelp u (by simp [hu]))
  · intro c x t h
    exact resolve_of_lookupA h

/-- Witness for C6: in the concrete tree `root -> build, serve (alias s)`,
the alias token `s` dispatches to the `serve` leaf, and the name `build`
resolves through the name table. -/
theorem chain_reaches_leaf_witness :
    Cmd.parse rootCmd (["s"] ++ ["extra"]) = Cmd.parse serveLeaf ["extra"] ∧
    rootCmd.resolve "build" = some buildLeaf :=
  ⟨chain_reaches_leaf.1 rootCmd serveLeaf ["s"] ["extra"]
      (Chain.cons rfl (Chain.nil serveLeaf)) (by decide),
   chain_reaches_leaf.2 rootCmd buildLeaf "build" rfl⟩

/-- C7: `parse ["help"]` returns 0 after writing a newline and this node's
help exactly once; `parse ["help", x]` where `x` names a child defers to
that child's own help handling; and on a node with no sub-commands
`parse ("help" :: x :: _)` returns 1 after writing the
`No subcommands defined.` diagnostic to the error channel. -/
theorem help_behavior :
    (∀ c : Cmd, Cmd.parse c ["help"] =
        (.int 0, [.write .out "\n", .printHelp .err])) ∧
    (∀ (c child : Cmd) (x : String), lookupA x c.subCommands = some child →
        Cmd.parse c ["help", x] = Cmd.parse child ["help"]) ∧
    (∀ (c : Cmd) (x : String) (xs : List String), c.subCommands = [] →
        Cmd.parse c ("help" :: x :: xs) =
          (.int 1, [.write .err "No subcommands defined.\n", .printUsage .err,
                    .write .err "Use --help to get more information about this command.\n"])) := by
  refine ⟨?_, ?_, ?_⟩
  · intro c
    rw [Cmd.parse.eq_2, if_pos rfl]
  · intro c child x h
    rw [Cmd.parse.eq_3, if_pos rfl,
      isEmpty_false_of_ne (lookupA_ne_nil h)]
    simp only [Bool.false_eq_true, if_false]
    exact route_resolved (resolve_of_lookupA h)
  · intro c x xs h
    rw [Cmd.parse.eq_3, if_pos rfl, h]
    rfl

/-- Witness for C7 at concrete nodes: help deferral on the example root,
and the no-sub-commands diagnostic on a leaf. -/
theorem help_behavior_witness :
    Cmd.parse rootCmd ["help", "serve"] = Cmd.parse serveLeaf ["help"] ∧
    Cmd.parse buildLeaf ["help", "x"] =
      (.int 1, [.write .err "No subcommands defined.\n", .printUsage .err,
                .write .err "Use --help to get more information about this command.\n"]) :=
  ⟨help_behavior.2.1 rootCmd serveLeaf "serve" rfl,
   help_behavior.2.2 buildLeaf "x" [] rfl⟩

/-- C8: on a node with children, a non-empty first token that is neither a
child name nor an alias yields exit status 1, an
`Unknown command '<token>'.` diagnostic on the error channel, and the list
of available commands printed to the error channel. -/
theorem unknown_command_diag (c : Cmd) (t : String) (rest : List String)
    (hch : c.children ≠ []) (ht : t ≠ "help") (hne : t ≠ "")
    (hres : c.resolve t = Option.none) :
    Cmd.parse c (t :: rest) =
      (.int 1, [.write .err ("Unknown command \x27" ++ t ++ "\x27.\n"),
                .printCommands .err]) := by
  rw [parse_cons_route ht (subCommands_ne_nil hch), Cmd.route.eq_def, hres]
  simp only [if_neg hne]

/-- Witness for C8: the spec's own scenario, `parse ["bogus"]` on the root
with children `build` and `serve`. -/
theorem unknown_command_diag_witness :
    Cmd.parse rootCmd ["bogus"] =
      (.int 1, [.write .err ("Unknown command \x27" ++ "bogus" ++ "\x27.\n"),
                .printCommands .err]) :=
  unknown_command_diag rootCmd "bogus" []
    (by simp [rootCmd, Cmd.children]) (by decide) (by decide) rfl

/-- Counterexample to C5: construction does not fail on colliding
identifiers.  A parent whose two children are both named `x` constructs
successfully, with the second child silently overwriting the first in
`subCommands`; a parent with a child named `x` and a sibling aliased `x`
keeps both entries, the alias merely shadowed at lookup. -/
theorem duplicate_name_not_rejected :
    dupParent.subCommands = [("x", dupSecond)] ∧
    dupParent.resolve "x" = some dupSecond ∧
    mixParent.subCommands = [("x", dupFirst), ("y", aliasChild)] ∧
    mixParent.aliasedSubCommands = [("x", aliasChild)] ∧
    mixParent.resolve "x" = some dupFirst :=
  ⟨rfl, rfl, rfl, rfl, rfl⟩

/-- C5 (amended): construction never rejects a collision.  Registering a
child under an already-present identifier overwrites the earlier binding
(last child wins), and an alias equal to a sibling's name is retained in
the alias table but shadowed at lookup by the name table's precedence. -/
theorem collision_last_wins :
    (∀ (k : String) (v : Cmd) (m : CmdMap),
        lookupA k (updateA k v m) = some v) ∧
    (∀ (c : Cmd) (t : String) (x y : Cmd),
        lookupA t c.subCommands = some x →
        lookupA t c.aliasedSubCommands = some y →
        c.resolve t = some x) := by
  refine ⟨lookupA_updateA_self, ?_⟩
  intro c t x y hx _
  exact resolve_of_lookupA hx

/-- Witness for C5 (amended) at concrete inputs: the duplicate binding of
`x` is overwritten, and the alias `x` of `aliasChild` is shadowed by its
sibling's name. -/
theorem collision_last_wins_witness :
    lookupA "x" (updateA "x" dupSecond [("x", dupFirst)]) = some dupSecond ∧
    mixParent.resolve "x" = some dupFirst :=
  ⟨collision_last_wins.1 "x" dupSecond [("x", dupFirst)],
   collision_last_wins.2 mixParent "x" dupFirst aliasChild rfl rfl⟩

/-- C9: the synchronous do-branch of `Command.parse` coerces the falsy but
non-`None` leaf result `""` to exit code 0, while `parseCb`'s normalization
(with no help/usage printed) passes the same value through unchanged: the
two normalizations disagree on falsy non-`None` inputs. -/
theorem coercion_mismatch :
    (Cmd.parse emptyStrLeaf []).1 = PyVal.int 0 ∧
    parseCbNorm false false (.str "") = .str "" ∧
    syncCoerce (.str "") ≠ parseCbNorm false false (.str "") := by
  refine ⟨?_, by decide, by decide⟩
  rw [Cmd.parse.eq_1]
  rfl

/-- C10: `parse ["help"]` writes the leading newline to the stdout channel
but the help text itself to the stderr channel (`outputHelp` defaults its
destination to `self.stderr`), and on a node whose ancestor chain has no
explicitly set sinks those two channels resolve to the process stdout and
stderr respectively. -/
theorem help_channels :
    (∀ c : Cmd, (Cmd.parse c ["help"]).2 =
        [Ev.write .out "\n", Ev.printHelp .err]) ∧
    (∀ chain : List (Option Sink × Option Sink),
        (∀ p ∈ chain, p = (Option.none, Option.none)) →
        getStd chain .out = .proc .out ∧ getStd chain .err = .proc .err) := by
  constructor
  · intro c
    rw [Cmd.parse.eq_2, if_pos rfl]
  · intro chain
    induction chain with
    | nil => intro _; exact ⟨rfl, rfl⟩
    | cons p t ih =>
      intro h
      have hp : p = (Option.none, Option.none) := h p (by simp)
      subst hp
      cases t with
      | nil => exact ⟨rfl, rfl⟩
      | cons q u => exact ih (fun r hr => h r (List.mem_cons_of_mem _ hr))

/-- Witness for C10: a single root node with no explicit sinks. -/
theorem help_channels_witness :
    (Cmd.parse rootCmd ["help"]).2 = [Ev.write .out "\n", Ev.printHelp .err] ∧
    getStd [(Option.none, Option.none)] .out = .proc .out ∧
    getStd [(Option.none, Option.none)] .err = .proc .err :=
  ⟨help_channels.1 rootCmd,
   (help_channels.2 [(Option.none, Option.none)] (by simp)).1,
   (help_channels.2 [(Option.none, Option.none)] (by simp)).2⟩

/-- C1: whenever the pending result settles with an unexpected fault (not
a `CommandExited`), the owning `ReactorCommand` writes the fault's
description to the error channel, issues exactly one scheduler stop (which
executes when the settlement happens during the run), and re-raises the
fault to the caller of `parse` — it never returns a numeric exit code. -/
theorem unexpected_fault_reraised (hp up : Bool) (plan : SettlePlan) (d : String)
    (h : plan.settlement = .fault (.other d)) :
    (reactorParse hp up plan).1 = .raises (.other d) ∧
    (reactorParse hp up plan).2.errWrites = ["Failure: " ++ d ++ "\n"] ∧
    (reactorParse hp up plan).2.stopRequests = 1 ∧
    (∀ s, plan = .during s → (reactorParse hp up plan).2.stopsExecuted = 1) := by
  cases plan with
  | already s =>
    simp only [SettlePlan.settlement] at h
    subst h
    refine ⟨rfl, rfl, rfl, ?_⟩
    intro s hs
    exact absurd hs (by simp)
  | during s =>
    simp only [SettlePlan.settlement] at h
    subst h
    exact ⟨rfl, rfl, rfl, fun _ _ => rfl⟩

/-- Witness for C1: a fault with description `boom` settling while the
reactor runs. -/
theorem unexpected_fault_reraised_witness :
    (reactorParse false false (.during (.fault (.other "boom")))).1 =
      .raises (.other "boom") ∧
    (reactorParse false false (.during (.fault (.other "boom")))).2.errWrites =
      ["Failure: boom\n"] ∧
    (reactorParse false false (.during (.fault (.other "boom")))).2.stopRequests = 1 ∧
    (reactorParse false false (.during (.fault (.other "boom")))).2.stopsExecuted = 1 := by
  have h := unexpected_fault_reraised false false
    (.during (.fault (.other "boom"))) "boom" rfl
  exact ⟨h.1, h.2.1, h.2.2.1, h.2.2.2 _ rfl⟩

/-- C2 (code bug): a pending action settling with a recognized
`CommandExited` (status 3, message `boom`) while the reactor runs.  The
errback evaluates `failure.value.msg` and `failure.value.code`, but a
`CommandExited` instance carries only `status` and `output` attributes, so
the errback raises `AttributeError`: nothing is written, no status is
returned, no stop is ever issued and `reactor.run()` never returns — the
exact opposite of the documented settlement mapping. -/
theorem expected_exit_errback_breaks :
    reactorParse false false (.during (.fault (.commandExited 3 (some "boom")))) =
      (.hangs,
       { runEntered := 1, stopRequests := 0, stopsExecuted := 0,
         finalFlag := true, errWrites := [], ebAttrError := true }) ∧
    exitedAttr 3 (some "boom") "msg" = Option.none ∧
    exitedAttr 3 (some "boom") "code" = Option.none ∧
    exitedAttr 3 (some "boom") "status" = some (.int 3) ∧
    exitedAttr 3 (some "boom") "output" = some (.str "boom") :=
  ⟨rfl, rfl, rfl, rfl, rfl⟩

/-- Counterexample to C3: when the pending outcome settles with an
unexpected fault during the run, the errback that observes the settlement
re-raises the fault but never sets the running flag back to false — after
`parse` the flag is still true, so the flag is not "set back to false
exactly once by whichever callback first observes the settlement". -/
theorem flag_not_reset_on_fault :
    (reactorParse false false (.during (.fault (.other "boom")))).2.finalFlag = true ∧
    (reactorParse false false (.during (.fault (.other "boom")))).2.stopsExecuted = 1 :=
  ⟨rfl, rfl⟩

/-- C3 (amended): per invocation with a pending outcome, `run()` is
entered at most once and at most one `stop()` is issued; the running flag
is false before `run()` is called and true for the run, and it is set back
to false exactly once by the success callback when it observes a success
settlement during the run — but a fault settlement leaves the flag true,
the errback issuing the single (scheduled) stop without clearing it. -/
theorem run_stop_flag_discipline (hp up : Bool) (plan : SettlePlan) :
    (reactorParse hp up plan).2.runEntered ≤ 1 ∧
    (reactorParse hp up plan).2.stopRequests ≤ 1 ∧
    (∀ v, plan = .during (.success v) →
        (reactorParse hp up plan).2.finalFlag = false ∧
        (reactorParse hp up plan).2.stopsExecuted = 1) ∧
    (∀ d, plan = .during (.fault (.other d)) →
        (reactorParse hp up plan).2.finalFlag = true) := by
  cases plan with
  | already s =>
    refine ⟨?_, ?_, fun v hv => absurd hv (by simp), fun d hd => absurd hd (by simp)⟩
    all_goals
      cases s with
      | success v => simp [reactorParse, fireChain, parseCbNorm_ne_none]
      | fault f =>
        cases f with
        | commandExited st out => simp [reactorParse, fireChain]
        | other d => simp [reactorParse, fireChain]
  | during s =>
    refine ⟨?_, ?_, ?_, ?_⟩
    · cases s with
      | success v => simp [reactorParse, fireChain]
      | fault f =>
        cases f with
        | commandExited st out => simp [reactorParse, fireChain]
        | other d => simp [reactorParse, fireChain]
    · cases s with
      | success v => simp [reactorParse, fireChain]
      | fault f =>
        cases f with
        | commandExited st out => simp [reactorParse, fireChain]
        | other d => simp [reactorParse, fireChain]
    · intro v hv
      rw [hv]
      exact ⟨rfl, rfl⟩
    · intro d hd
      rw [hd]
      rfl

/-- Witness for C3 (amended): a success settling during the run clears the
flag and stops the reactor exactly once. -/
theorem run_stop_flag_discipline_witness :
    (reactorParse false false (.during (.success (.int 0)))).2.finalFlag = false ∧
    (reactorParse false false (.during (.success (.int 0)))).2.stopsExecuted = 1 :=
  (run_stop_flag_discipline false false (.during (.success (.int 0)))).2.2.1
    (.int 0) rfl

/-- C4: when the pending action has already settled before the owner
reaches the point of starting the scheduler and the captured return value
is non-`None`, the owner skips the run/stop cycle entirely — `run()` is
never entered — and directly returns the captured exit code or re-raises
the captured fault. -/
theorem presettled_skips_run (hp up : Bool) (s : Settlement)
    (h : (fireChain hp up s (.val .none) false).returnValue ≠ .val .none) :
    (reactorParse hp up (.already s)).2.runEntered = 0 ∧
    (reactorParse hp up (.already s)).1 =
      (fireChain hp up s (.val .none) false).returnValue.toOutcome := by
  simp only [reactorParse]
  rw [if_pos h]
  exact ⟨rfl, rfl⟩

/-- Witness for C4: a deferred that already settled with value 5 makes
`parse` return 5 without entering the reactor. -/
theorem presettled_skips_run_witness :
    (reactorParse false false (.already (.success (.int 5)))).2.runEntered = 0 ∧
    (reactorParse false false (.already (.success (.int 5)))).1 =
      (fireChain false false (.success (.int 5)) (.val .none) false).returnValue.toOutcome :=
  presettled_skips_run false false (.success (.int 5)) (by decide)

end PyCommand
